import Mathlib

/-!
Shallow embedding of the arcade game's entity/collision/lifecycle core
(src/js/app.js, final iteration, and src/js/engine.js).

Coordinates, speeds and time deltas are modelled as exact rationals (ℚ);
the JavaScript code stores them in doubles, and every operation the core
performs on them (addition, subtraction, multiplication, Math.floor,
comparisons) is mirrored exactly here.  Sprite dimensions come from the
art assets: the bug/boy/star sprites are 101x171 pixels (the source
records this in comments: rect bounds `r: 101`, `b: 145 = h - 26`,
player `r: 83 = w - 18`, `b: 140 = h - 31`).
-/

namespace Arcade

/-! ### Geometry: axis-aligned bounding boxes (app.js `Enemy.rectsIntersect`) -/

/-- Axis-aligned bounding box `{left, top, right, bottom}` in screen pixels. -/
structure Box where
  left : ℚ
  top : ℚ
  right : ℚ
  bottom : ℚ
deriving DecidableEq

/-- `Enemy.rectsIntersect(a, b)` from app.js:
`return !(a.right < b.left || b.right < a.left || a.bottom < b.top || b.bottom < a.top)`. -/
def rectsIntersect (a b : Box) : Bool :=
  !(decide (a.right < b.left) || decide (b.right < a.left) ||
    decide (a.bottom < b.top) || decide (b.bottom < a.top))

/-! ### Shared constants (engine.js canvas setup, app.js `Enemy` constructor) -/

/-- `canvas.width = 505` (engine.js). -/
def canvasWidth : ℚ := 505

/-- `canvas.height = 606` (engine.js). -/
def canvasHeight : ℚ := 606

/-- Local collision-box offsets `{left, top, right, bottom}` from an entity's
position (app.js `rectBounds`). -/
structure RectBounds where
  left : ℚ
  top : ℚ
  right : ℚ
  bottom : ℚ

/-- Movement arena `{x, y, width, height}` (app.js `screenBounds`). -/
structure ScreenBounds where
  x : ℚ
  y : ℚ
  width : ℚ
  height : ℚ

/-- Sprite width of the bug/boy/star art assets (101 px). -/
def spriteW : ℚ := 101

/-- Sprite height of the bug/boy/star art assets (171 px). -/
def spriteH : ℚ := 171

/-- `this.screenBounds = {x: 0, y: 52, width: canvas.width, height: canvas.height - 20}`
from the `Enemy` constructor; shared by all entities. -/
def screenBounds : ScreenBounds := ⟨0, 52, canvasWidth, canvasHeight - 20⟩

/-- `this.rectBounds = {left: 0, top: 76, right: this.w, bottom: this.h - 26}`
from the `Enemy` constructor. -/
def enemyRectBounds : RectBounds := ⟨0, 76, spriteW, spriteH - 26⟩

/-- `this.rectBounds = {left: 18, top: 64, right: 83, bottom: 140}`
from the `Player` constructor. -/
def playerRectBounds : RectBounds := ⟨18, 64, 83, 140⟩

/-- `this.rectBounds = {left: 15, top: 66, right: this.w - 15, bottom: this.h - 35}`
from the `Bonus` constructor. -/
def bonusRectBounds : RectBounds := ⟨15, 66, spriteW - 15, spriteH - 35⟩

/-- The single bounding box every entity derives from its position and its
`rectBounds` (app.js `Enemy.prototype.boundingBoxes`). -/
def baseBox (rb : RectBounds) (x y : ℚ) : Box :=
  ⟨x + rb.left, y + rb.top, x + rb.right, y + rb.bottom⟩

/-! ### Player (app.js `Player`, final iteration) -/

/-- The four directional input flags (`this.moves` in the `Player` constructor). -/
structure Moves where
  left : Bool
  right : Bool
  up : Bool
  down : Bool

/-- Player state: position, scalar speed (mutable via `Bonus.applyBonus`),
and the input flags. `rectBounds`/`screenBounds` are the fixed constants
above, exactly as the constructors set them. -/
structure Player where
  x : ℚ
  y : ℚ
  speed : ℚ
  moves : Moves

/-- `Player.prototype.forceScreenBounds`: edge-by-edge clamp of the
collision box into `screenBounds`, in source order (left, right, top, bottom). -/
def Player.forceScreenBounds (p : Player) : Player :=
  let p := if p.x + playerRectBounds.left < screenBounds.x then
    { p with x := screenBounds.x - playerRectBounds.left } else p
  let p := if p.x + playerRectBounds.right > screenBounds.width then
    { p with x := screenBounds.width - playerRectBounds.right } else p
  let p := if p.y + playerRectBounds.top < screenBounds.y then
    { p with y := screenBounds.y - playerRectBounds.top } else p
  let p := if p.y + playerRectBounds.bottom > screenBounds.height then
    { p with y := screenBounds.height - playerRectBounds.bottom } else p
  p

/-- `Player.prototype.update(dt)`: apply `displacement = dt * speed` per
active flag, then clamp to the screen. -/
def Player.update (p : Player) (dt : ℚ) : Player :=
  let displacement := dt * p.speed
  let p := if p.moves.left then { p with x := p.x - displacement } else p
  let p := if p.moves.right then { p with x := p.x + displacement } else p
  let p := if p.moves.up then { p with y := p.y - displacement } else p
  let p := if p.moves.down then { p with y := p.y + displacement } else p
  p.forceScreenBounds

/-- `Player.prototype.reachedWater()`: `this.y < -10`. -/
def Player.reachedWater (p : Player) : Bool := decide (p.y < -10)

/-- Player inherits `Enemy.prototype.boundingBoxes` (one box). -/
def Player.boundingBoxes (p : Player) : List Box :=
  [baseBox playerRectBounds p.x p.y]

/-! ### Enemies (app.js `Enemy`, `WrappingEnemy`, `BouncingEnemy`, `WildEnemy`) -/

/-- State of a plain `Enemy` (its `update` is a no-op). -/
structure EnemyBase where
  x : ℚ
  y : ℚ
  speed : ℚ

/-- State of a `BouncingEnemy`: position, speed, and the direction flag set
to `true` by its constructor. -/
structure BouncingEnemy where
  x : ℚ
  y : ℚ
  speed : ℚ
  goingRight : Bool

/-- `BouncingEnemy.prototype.update(dt)`: move by `Math.floor(speed * dt)` in
the current direction; on crossing the far boundary, clamp and flip. -/
def BouncingEnemy.update (e : BouncingEnemy) (dt : ℚ) : BouncingEnemy :=
  let displacement : ℚ := (⌊e.speed * dt⌋ : ℤ)
  if e.goingRight then
    let e := { e with x := e.x + displacement }
    if e.x + enemyRectBounds.left > screenBounds.width then
      { e with x := screenBounds.width, goingRight := false }
    else e
  else
    let e := { e with x := e.x - displacement }
    if e.x + enemyRectBounds.right < 0 then
      { e with x := -enemyRectBounds.right, goingRight := true }
    else e

/-- State of a `WildEnemy`: a bouncing enemy plus the private decision clock
`time_`. -/
structure WildEnemy extends BouncingEnemy where
  time_ : ℚ

/-- `this.speedChange_ = 100` (WildEnemy constructor). -/
def speedChange : ℚ := 100

/-- `this.minSpeed_ = 100` (WildEnemy constructor). -/
def minSpeed : ℚ := 100

/-- `this.maxSpeed_ = 1000` (WildEnemy constructor). -/
def maxSpeed : ℚ := 1000

/-- `this.decisionTime_ = 2` (WildEnemy constructor). -/
def decisionTime : ℚ := 2

/-- `WildEnemy.prototype.update(dt)`: advance the decision clock; when it
exceeds `decisionTime_`, subtract the interval and roll 1-of-3 (flip
direction / increase speed clamped to `maxSpeed_` / decrease speed clamped
to `minSpeed_`); then run the inherited bouncing update.  Randomness is
modelled by a list of rolls (`Math.floor(Math.random() * 3)` values); the
result carries the unconsumed rolls and whether a decision fired. -/
def WildEnemy.update (e : WildEnemy) (dt : ℚ) (rolls : List ℕ) :
    WildEnemy × List ℕ × Bool :=
  let time1 := e.time_ + dt
  if time1 > decisionTime then
    let chance := rolls.headD 0
    let e1 : WildEnemy :=
      if chance = 0 then
        { e with goingRight := !e.goingRight, time_ := time1 - decisionTime }
      else if chance = 1 then
        let s := e.speed + speedChange
        { e with speed := if s > maxSpeed then maxSpeed else s,
                 time_ := time1 - decisionTime }
      else
        let s := e.speed - speedChange
        { e with speed := if s < minSpeed then minSpeed else s,
                 time_ := time1 - decisionTime }
    ({ e1 with toBouncingEnemy := e1.toBouncingEnemy.update dt }, rolls.tail, true)
  else
    let e1 : WildEnemy := { e with time_ := time1 }
    ({ e1 with toBouncingEnemy := e1.toBouncingEnemy.update dt }, rolls, false)

/-- Run a `WildEnemy` through a sequence of ticks, counting how many
randomized decisions fired. -/
def WildEnemy.run (e : WildEnemy) : List ℚ → List ℕ → WildEnemy × List ℕ × ℕ
  | [], rolls => (e, rolls, 0)
  | dt :: dts, rolls =>
    let r := e.update dt rolls
    let rest := r.1.run dts r.2.1
    (rest.1, rest.2.1, (if r.2.2 then 1 else 0) + rest.2.2)

/-- State of a `WrappingEnemy`. -/
structure WrappingEnemy where
  x : ℚ
  y : ℚ
  speed : ℚ

/-- `WrappingEnemy.prototype.update(dt)`: `x += Math.floor(speed * dt)`;
re-enter at 0 after moving past the right edge. -/
def WrappingEnemy.update (e : WrappingEnemy) (dt : ℚ) : WrappingEnemy :=
  let e := { e with x := e.x + ((⌊e.speed * dt⌋ : ℤ) : ℚ) }
  if e.x > screenBounds.width then { e with x := 0 } else e

/-- Run a `WrappingEnemy` through a sequence of ticks. -/
def WrappingEnemy.run (e : WrappingEnemy) : List ℚ → WrappingEnemy
  | [] => e
  | dt :: dts => (e.update dt).run dts

/-- `WrappingEnemy.prototype.boundingBoxes()`: the inherited box, plus a
second box for the wrapped part when `(x + rectBounds.right) - width > 0`. -/
def WrappingEnemy.boundingBoxes (e : WrappingEnemy) : List Box :=
  let boxes := [baseBox enemyRectBounds e.x e.y]
  let wrapped := (e.x + enemyRectBounds.right) - screenBounds.width
  if wrapped > 0 then
    boxes ++ [⟨0, e.y + enemyRectBounds.top, wrapped, e.y + enemyRectBounds.bottom⟩]
  else boxes

/-! ### Bonus (app.js `Bonus`) -/

/-- `this.speed = 100` (Bonus constructor); never mutated. -/
def bonusSpeed : ℚ := 100

/-- Bonus state; `alive_` starts `true` in the constructor. -/
structure Bonus where
  x : ℚ
  y : ℚ
  alive_ : Bool

/-- Bonus inherits `Enemy.prototype.boundingBoxes` (one box, with the
bonus's own `rectBounds`). -/
def Bonus.boundingBoxes (b : Bonus) : List Box :=
  [baseBox bonusRectBounds b.x b.y]

/-- `Bonus.prototype.isAlive()`. -/
def Bonus.isAlive (b : Bonus) : Bool := b.alive_

/-- `Bonus.prototype.applyBonus(receiver)`: double the receiver's speed and
die. -/
def Bonus.applyBonus (b : Bonus) (receiver : Player) : Bonus × Player :=
  ({ b with alive_ := false }, { receiver with speed := receiver.speed * 2 })

/-- The nested intersection loop of `Bonus.prototype.update` (and of
`Enemy.prototype.collide`): does any own box intersect any of the other's
boxes? The source's labelled `break` is an early exit with no observable
difference from `any`. -/
def collideAny (own other : List Box) : Bool :=
  own.any fun a => other.any fun b => rectsIntersect a b

/-- `Bonus.prototype.update(dt)`: fall by `speed * dt`, die below the
arena, then apply the bonus to the player on box overlap.  The player is
passed explicitly here; the source reads the global `player`. -/
def Bonus.update (b : Bonus) (p : Player) (dt : ℚ) : Bonus × Player :=
  let b1 := { b with y := b.y + bonusSpeed * dt }
  let b2 := if b1.y > screenBounds.height then { b1 with alive_ := false } else b1
  if collideAny b2.boundingBoxes p.boundingBoxes then b2.applyBonus p
  else (b2, p)

/-! ### The entity taxonomy for `boundingBoxes` dispatch -/

/-- Every entity kind of app.js that owns bounding boxes, with its state. -/
inductive Ent where
  | plain (e : EnemyBase)
  | wrapping (e : WrappingEnemy)
  | bouncing (e : BouncingEnemy)
  | wild (e : WildEnemy)
  | player (p : Player)
  | bonus (b : Bonus)

/-- `boundingBoxes()` virtual dispatch: every kind uses the inherited
single-box implementation except `WrappingEnemy`. -/
def Ent.boundingBoxes : Ent → List Box
  | .plain e => [baseBox enemyRectBounds e.x e.y]
  | .wrapping e => e.boundingBoxes
  | .bouncing e => [baseBox enemyRectBounds e.x e.y]
  | .wild e => [baseBox enemyRectBounds e.x e.y]
  | .player p => p.boundingBoxes
  | .bonus b => b.boundingBoxes

/-! ### Chronos and the session controller's critter pass
(app.js `Chronos`, engine.js `updateEntities`) -/

/-- Chronos state: elapsed time and the target (`targetTime_`). -/
structure Chronos where
  time_ : ℚ
  targetTime_ : ℚ

/-- `Chronos.prototype.isAlive()`: `this.time_ < this.targetTime_`. -/
def Chronos.isAlive (c : Chronos) : Bool := decide (c.time_ < c.targetTime_)

/-- `Chronos.prototype.update(dt)`: accumulate time; the returned flag
records whether `this.fn_()` was invoked (`if (!this.isAlive()) this.fn_()`). -/
def Chronos.update (c : Chronos) (dt : ℚ) : Chronos × Bool :=
  let c1 : Chronos := { c with time_ := c.time_ + dt }
  (c1, !c1.isAlive)

/-- One tick of `updateEntities`' critter pass for a roster holding a single
Chronos: the critter is kept and updated only if it `isAlive()` before the
update, else it is dropped without being updated. -/
def critterStep (roster : Option Chronos) (dt : ℚ) : Option Chronos × Bool :=
  match roster with
  | none => (none, false)
  | some c =>
    if c.isAlive then
      let r := c.update dt
      (some r.1, r.2)
    else (none, false)

/-- Per-tick callback-invocation flags across a sequence of ticks. -/
def critterFires (roster : Option Chronos) : List ℚ → List Bool
  | [] => []
  | dt :: dts => (critterStep roster dt).2 :: critterFires (critterStep roster dt).1 dts

/-- Roster contents after a sequence of ticks. -/
def critterAfter (roster : Option Chronos) : List ℚ → Option Chronos
  | [] => roster
  | dt :: dts => critterAfter (critterStep roster dt).1 dts

/-- Aliveness of the roster entry (an absent critter counts as dead). -/
def aliveOpt : Option Chronos → Bool
  | none => false
  | some c => c.isAlive

/-! ### The game loop's reset protocol (engine.js `request_reset` / `main`) -/

/-- Observable events of one `main()` frame. -/
inductive Ev where
  | reset (param : Option Bool)
  | update (dt : ℚ)
  | render

/-- The world the engine drives (enemy roster, player, critters), together
with the operations engine.js invokes on it.  `updateEntities` additionally
reports whether `request_reset` was invoked from within (the Chronos
callback, which passes no argument: parameter `none`); `collidePass` is the
unhit-then-`collide` loop of `checkCollisions`. -/
structure EngineFns (W : Type) where
  updateEntities : ℚ → W → W × Option (Option Bool)
  collidePass : W → W
  isHit : W → Bool
  reachedWater : W → Bool
  resetWorld : Option Bool → W

/-- Engine-scope mutable state: `reset_request`, `reset_param`, and the
game world. -/
structure EngineState (W : Type) where
  reset_request : Bool
  reset_param : Option Bool
  world : W

/-- `request_reset(arg)`: post a request; the reset itself is not applied. -/
def requestReset {W : Type} (s : EngineState W) (arg : Option Bool) : EngineState W :=
  { s with reset_request := true, reset_param := arg }

/-- `checkCollisions()`: run the collision pass, then request a reset with
`false` on player hit and with `true` on goal reached (in that order; the
later request overwrites the earlier parameter). -/
def checkCollisions {W : Type} (F : EngineFns W) (s : EngineState W) : EngineState W :=
  let w := F.collidePass s.world
  let s1 : EngineState W := { s with world := w }
  let s2 := if F.isHit w then requestReset s1 (some false) else s1
  if F.reachedWater w then requestReset s2 (some true) else s2

/-- `update(dt)`: `updateEntities(dt)` (which may itself post a request via
the Chronos callback) followed by `checkCollisions()`. -/
def updatePass {W : Type} (F : EngineFns W) (dt : ℚ) (s : EngineState W) : EngineState W :=
  let r := F.updateEntities dt s.world
  let s1 : EngineState W := { s with world := r.1 }
  let s2 := match r.2 with
    | some arg => requestReset s1 arg
    | none => s1
  checkCollisions F s2

/-- One frame of `main()`: apply a pending reset (clearing the request
state) before anything else, then `update(dt)`, then `render()`.  The
returned event list records what happened, in order. -/
def main_tick {W : Type} (F : EngineFns W) (dt : ℚ) (s : EngineState W) :
    EngineState W × List Ev :=
  let s1 : EngineState W × List Ev :=
    if s.reset_request then
      (⟨false, none, F.resetWorld s.reset_param⟩, [Ev.reset s.reset_param])
    else (s, [])
  (updatePass F dt s1.1, s1.2 ++ [Ev.update dt, Ev.render])

/-- A minimal concrete world instance (used to exercise the engine model on
a closed run: the goal predicate always holds, so every tick requests a
reset). -/
def unitEngine : EngineFns Unit where
  updateEntities := fun _ w => (w, none)
  collidePass := fun w => w
  isHit := fun _ => false
  reachedWater := fun _ => true
  resetWorld := fun _ => ()

end Arcade

namespace Arcade

/-- Claim C9: `rectsIntersect` is exactly the negation of axis disjointness,
is symmetric, is true on any well-formed box against itself, counts touching
edges as intersecting, and is false whenever some axis has a gap of at least
one pixel. -/
theorem rectsIntersect_spec (a b : Box) :
    (rectsIntersect a b = true ↔
      ¬(a.right < b.left ∨ b.right < a.left ∨ a.bottom < b.top ∨ b.bottom < a.top)) ∧
    rectsIntersect a b = rectsIntersect b a ∧
    (a.left ≤ a.right → a.top ≤ a.bottom → rectsIntersect a a = true) ∧
    (a.left ≤ a.right → b.left ≤ b.right → a.right = b.left →
      ¬(a.bottom < b.top) → ¬(b.bottom < a.top) → rectsIntersect a b = true) ∧
    ((a.right + 1 ≤ b.left ∨ b.right + 1 ≤ a.left ∨
      a.bottom + 1 ≤ b.top ∨ b.bottom + 1 ≤ a.top) → rectsIntersect a b = false) := by
  refine ⟨?_, ?_, ?_, ?_, ?_⟩
  · simp [rectsIntersect, or_assoc, and_assoc]
  · simp only [rectsIntersect]
    by_cases h1 : a.right < b.left <;> by_cases h2 : b.right < a.left <;>
      by_cases h3 : a.bottom < b.top <;> by_cases h4 : b.bottom < a.top <;>
      simp [h1, h2, h3, h4]
  · intro h1 h2
    simp [rectsIntersect, not_lt.2 h1, not_lt.2 h2]
  · intro hwa hwb he h3 h4
    simp only [rectsIntersect, Bool.not_eq_eq_eq_not, Bool.not_true, Bool.or_eq_false_iff,
      decide_eq_false_iff_not]
    exact ⟨⟨⟨by rw [he]; exact lt_irrefl _, by rw [← he] at hwb; exact not_lt.2 (hwa.trans hwb)⟩,
      h3⟩, h4⟩
  · intro h
    simp only [rectsIntersect, Bool.not_eq_eq_eq_not, Bool.not_true]
    rcases h with h | h | h | h
    · simp [show a.right < b.left by linarith]
    · simp [show b.right < a.left by linarith]
    · simp [show a.bottom < b.top by linarith]
    · simp [show b.bottom < a.top by linarith]

/-- Witness for C9 at concrete boxes from the spec's examples:
`a = {0,0,10,10}` vs `b = {10,0,20,10}` (touching) intersect, and `a` is
reflexive. -/
theorem rectsIntersect_spec_witness :
    rectsIntersect ⟨0, 0, 10, 10⟩ ⟨0, 0, 10, 10⟩ = true ∧
    rectsIntersect ⟨0, 0, 10, 10⟩ ⟨10, 0, 20, 10⟩ = true := by
  refine ⟨(rectsIntersect_spec ⟨0, 0, 10, 10⟩ ⟨0, 0, 10, 10⟩).2.2.1 (by norm_num) (by norm_num),
    (rectsIntersect_spec ⟨0, 0, 10, 10⟩ ⟨10, 0, 20, 10⟩).2.2.2.1 (by norm_num) (by norm_num)
      rfl (by norm_num) (by norm_num)⟩

/-- Helper for claim C3: `forceScreenBounds` alone puts the collision box
inside the arena, whatever the starting position. -/
theorem player_force_in_bounds (p : Player) :
    screenBounds.x ≤ p.forceScreenBounds.x + playerRectBounds.left ∧
    p.forceScreenBounds.x + playerRectBounds.right ≤ screenBounds.width ∧
    screenBounds.y ≤ p.forceScreenBounds.y + playerRectBounds.top ∧
    p.forceScreenBounds.y + playerRectBounds.bottom ≤ screenBounds.height := by
  unfold Player.forceScreenBounds
  dsimp only [screenBounds, playerRectBounds, canvasWidth, canvasHeight]
  split_ifs with h1 h2 h3 h4 <;>
    refine ⟨?_, ?_, ?_, ?_⟩ <;>
    dsimp only <;>
    norm_num at * <;>
    linarith

/-- Claim C3: after `Player.update(dt)` with `dt ≥ 0`, the player's collision
box lies inside the arena on both axes, for every state and input-flag
configuration. -/
theorem player_update_in_bounds (p : Player) (dt : ℚ) (hdt : 0 ≤ dt) :
    screenBounds.x ≤ (p.update dt).x + playerRectBounds.left ∧
    (p.update dt).x + playerRectBounds.right ≤ screenBounds.width ∧
    screenBounds.y ≤ (p.update dt).y + playerRectBounds.top ∧
    (p.update dt).y + playerRectBounds.bottom ≤ screenBounds.height := by
  clear hdt
  unfold Player.update
  dsimp only
  exact player_force_in_bounds _

/-- Claim C7: a right-moving bouncing enemy whose displaced position crosses
the right boundary (`x + rectBounds.left > screenBounds.width` after the
move) is clamped to `screenBounds.width` with `goingRight` flipped to
`false` in that same `update` call. -/
theorem bouncing_flips_same_tick (e : BouncingEnemy) (dt : ℚ)
    (hdir : e.goingRight = true)
    (hcross : e.x + ((⌊e.speed * dt⌋ : ℤ) : ℚ) + enemyRectBounds.left > screenBounds.width) :
    (e.update dt).x = screenBounds.width ∧ (e.update dt).goingRight = false := by
  unfold BouncingEnemy.update
  simp only [hdir, if_true, hcross]
  simp [hcross]

/-- Witness for C7: an enemy at `x = 500` with speed 222 and `dt = 1`. -/
theorem bouncing_flips_same_tick_witness :
    ((BouncingEnemy.mk 500 146 222 true).update 1).x = screenBounds.width ∧
    ((BouncingEnemy.mk 500 146 222 true).update 1).goingRight = false :=
  bouncing_flips_same_tick (BouncingEnemy.mk 500 146 222 true) 1 rfl
    (by norm_num [enemyRectBounds, screenBounds, spriteW, canvasWidth, canvasHeight])

/-- Helper for claim C8: one wrapping update either teleports to 0 (exactly
when the advanced position exceeds the arena width) or lands on the
advanced position. -/
theorem wrapping_update_char (e : WrappingEnemy) (dt : ℚ) :
    (e.update dt).x =
      if e.x + ((⌊e.speed * dt⌋ : ℤ) : ℚ) > screenBounds.width then 0
      else e.x + ((⌊e.speed * dt⌋ : ℤ) : ℚ) := by
  unfold WrappingEnemy.update
  dsimp only
  split <;> simp_all

/-- Helper for claim C8: the wrapping update never changes the speed. -/
theorem wrapping_update_speed (e : WrappingEnemy) (dt : ℚ) :
    (e.update dt).speed = e.speed := by
  unfold WrappingEnemy.update
  dsimp only
  split <;> rfl

/-- Helper for claim C8: a single update from a nonnegative position with
nonnegative speed and `dt ≥ 0` stays nonnegative. -/
theorem wrapping_update_nonneg (e : WrappingEnemy) (dt : ℚ)
    (hx : 0 ≤ e.x) (hs : 0 ≤ e.speed) (hdt : 0 ≤ dt) : 0 ≤ (e.update dt).x := by
  rw [wrapping_update_char]
  have hfl : (0 : ℚ) ≤ ((⌊e.speed * dt⌋ : ℤ) : ℚ) := by
    exact_mod_cast Int.floor_nonneg.mpr (mul_nonneg hs hdt)
  split
  · exact le_refl 0
  · linarith

/-- Claim C8: a wrapping enemy (arena width 505) advances by
`floor(speed × dt)` and teleports to 0 exactly when the advanced position
exceeds 505; starting from a nonnegative position with nonnegative speed,
`x` never becomes negative over any sequence of updates with `dt ≥ 0`. -/
theorem wrapping_never_negative (e : WrappingEnemy) (dt : ℚ) (dts : List ℚ)
    (hx : 0 ≤ e.x) (hs : 0 ≤ e.speed) (hdts : ∀ d ∈ dts, 0 ≤ d) :
    ((e.update dt).x =
      if e.x + ((⌊e.speed * dt⌋ : ℤ) : ℚ) > screenBounds.width then 0
      else e.x + ((⌊e.speed * dt⌋ : ℤ) : ℚ)) ∧
    0 ≤ (e.run dts).x := by
  refine ⟨wrapping_update_char e dt, ?_⟩
  clear dt
  induction dts generalizing e with
  | nil => exact hx
  | cons d rest ih =>
    have hd : 0 ≤ d := hdts d (List.mem_cons_self d rest)
    have hrest : ∀ d0 ∈ rest, 0 ≤ d0 := fun d0 hm => hdts d0 (List.mem_cons_of_mem d hm)
    show 0 ≤ ((e.update d).run rest).x
    exact ih (e.update d) (wrapping_update_nonneg e d hx hs hd)
      (by rw [wrapping_update_speed]; exact hs) hrest

/-- Witness for C8: the spec's own scenario, an enemy at `x = 500 = W - 5`
with speed 222, ticked with `dt = 1` twice. -/
theorem wrapping_never_negative_witness :
    (((WrappingEnemy.mk 500 146 222).update 1).x =
      if (500 : ℚ) + ((⌊(222 : ℚ) * 1⌋ : ℤ) : ℚ) > screenBounds.width then 0
      else (500 : ℚ) + ((⌊(222 : ℚ) * 1⌋ : ℤ) : ℚ)) ∧
    0 ≤ ((WrappingEnemy.mk 500 146 222).run [1, 1]).x :=
  wrapping_never_negative (WrappingEnemy.mk 500 146 222) 1 [1, 1]
    (by norm_num) (by norm_num) (by norm_num)

/-- Helper for claim C10: one bouncing update keeps `x` within
`[-rectBounds.right, screenBounds.width]` given nonnegative speed and dt. -/
theorem bouncing_update_x_range (e : BouncingEnemy) (dt : ℚ)
    (hdt : 0 ≤ dt) (hs : 0 ≤ e.speed)
    (hlo : -enemyRectBounds.right ≤ e.x) (hhi : e.x ≤ screenBounds.width) :
    -enemyRectBounds.right ≤ (e.update dt).x ∧ (e.update dt).x ≤ screenBounds.width := by
  have hfl : (0 : ℚ) ≤ ((⌊e.speed * dt⌋ : ℤ) : ℚ) := by
    exact_mod_cast Int.floor_nonneg.mpr (mul_nonneg hs hdt)
  unfold BouncingEnemy.update
  dsimp only
  simp only [enemyRectBounds, screenBounds, spriteW, spriteH, canvasWidth,
    canvasHeight] at hlo hhi ⊢
  norm_num at hlo hhi ⊢
  split
  · split
    · norm_num
    · constructor <;> dsimp only <;> linarith
  · split
    · norm_num
    · constructor <;> dsimp only <;> linarith

/-- Claim C10: a bouncing enemy (and a wild enemy) whose `x` lies within
`[-rectBounds.right, screenBounds.width]` stays within that interval after
any `update(dt)` with `dt ≥ 0`, assuming its speed is nonnegative (as it is
for every constructed instance). -/
theorem bouncing_stays_near_arena :
    (∀ (e : BouncingEnemy) (dt : ℚ), 0 ≤ dt → 0 ≤ e.speed →
      -enemyRectBounds.right ≤ e.x → e.x ≤ screenBounds.width →
      -enemyRectBounds.right ≤ (e.update dt).x ∧ (e.update dt).x ≤ screenBounds.width) ∧
    (∀ (e : WildEnemy) (dt : ℚ) (rolls : List ℕ), 0 ≤ dt → 0 ≤ e.speed →
      -enemyRectBounds.right ≤ e.x → e.x ≤ screenBounds.width →
      -enemyRectBounds.right ≤ ((e.update dt rolls).1).x ∧
        ((e.update dt rolls).1).x ≤ screenBounds.width) := by
  refine ⟨fun e dt hdt hs hlo hhi => bouncing_update_x_range e dt hdt hs hlo hhi, ?_⟩
  intro e dt rolls hdt hs hlo hhi
  unfold WildEnemy.update
  dsimp only
  split
  · split
    · exact bouncing_update_x_range _ dt hdt hs hlo hhi
    · split
      · refine bouncing_update_x_range _ dt hdt ?_ hlo hhi
        dsimp only
        split
        · norm_num [maxSpeed]
        · have : (0 : ℚ) ≤ speedChange := by norm_num [speedChange]
          linarith
      · refine bouncing_update_x_range _ dt hdt ?_ hlo hhi
        dsimp only
        split
        · norm_num [minSpeed]
        · rename_i hcl
          rw [not_lt] at hcl
          have : (0 : ℚ) ≤ minSpeed := by norm_num [minSpeed]
          linarith
  · exact bouncing_update_x_range _ dt hdt hs hlo hhi

/-- Helper: the bouncing update never changes the speed. -/
theorem bouncing_update_speed (e : BouncingEnemy) (dt : ℚ) :
    (e.update dt).speed = e.speed := by
  unfold BouncingEnemy.update
  dsimp only
  split <;> split <;> rfl

/-- Helper: the wild update's decision clock follows
`if time_ + dt > decisionTime_ then time_ + dt - decisionTime_ else time_ + dt`. -/
theorem wild_update_time (e : WildEnemy) (dt : ℚ) (rolls : List ℕ) :
    ((e.update dt rolls).1).time_ =
      if e.time_ + dt > decisionTime then e.time_ + dt - decisionTime
      else e.time_ + dt := by
  unfold WildEnemy.update
  dsimp only
  split
  · split
    · simp_all
    · split <;> simp_all
  · simp_all

/-- Helper: the wild update reports a decision exactly when the advanced
clock exceeds `decisionTime_`. -/
theorem wild_update_fired (e : WildEnemy) (dt : ℚ) (rolls : List ℕ) :
    ((e.update dt rolls).2).2 = decide (e.time_ + dt > decisionTime) := by
  unfold WildEnemy.update
  dsimp only
  split
  · rename_i h
    split
    · simp [h]
    · split <;> simp [h]
  · rename_i h
    simp [h]

/-- Helper: the wild update keeps the speed within `[minSpeed_, maxSpeed_]`. -/
theorem wild_update_speed_range (e : WildEnemy) (dt : ℚ) (rolls : List ℕ)
    (h1 : minSpeed ≤ e.speed) (h2 : e.speed ≤ maxSpeed) :
    minSpeed ≤ ((e.update dt rolls).1).speed ∧
      ((e.update dt rolls).1).speed ≤ maxSpeed := by
  unfold WildEnemy.update
  dsimp only
  split
  · split
    · rw [bouncing_update_speed]
      exact ⟨h1, h2⟩
    · split
      · rw [bouncing_update_speed]
        dsimp only
        split
        · norm_num [minSpeed, maxSpeed]
        · rename_i hcl
          rw [not_lt] at hcl
          have hch : (0 : ℚ) ≤ speedChange := by norm_num [speedChange]
          exact ⟨by linarith, hcl⟩
      · rw [bouncing_update_speed]
        dsimp only
        split
        · norm_num [minSpeed, maxSpeed]
        · rename_i hcl
          rw [not_lt] at hcl
          have hch : (0 : ℚ) ≤ speedChange := by norm_num [speedChange]
          exact ⟨hcl, by linarith⟩
  · rw [bouncing_update_speed]
    exact ⟨h1, h2⟩

/-- Helper: number of decisions fired over a run, for a clock starting at
`time_ ∈ [0, decisionTime_]` and a window of at most `2 * decisionTime_`:
one decision exactly when the accumulated time passes `decisionTime_`. -/
theorem wild_run_count (dts : List ℚ) (e : WildEnemy) (rolls : List ℕ)
    (h0 : 0 ≤ e.time_) (h2 : e.time_ ≤ decisionTime)
    (h4 : e.time_ + dts.sum ≤ 2 * decisionTime)
    (hnn : ∀ d ∈ dts, 0 ≤ d) :
    ((e.run dts rolls).2).2 = if decisionTime < e.time_ + dts.sum then 1 else 0 := by
  induction dts generalizing e rolls with
  | nil =>
    simp only [WildEnemy.run, List.sum_nil, add_zero]
    rw [if_neg (not_lt.mpr h2)]
  | cons d rest ih =>
    have hd : 0 ≤ d := hnn d (List.mem_cons_self d rest)
    have hrest : ∀ d0 ∈ rest, 0 ≤ d0 := fun d0 hm => hnn d0 (List.mem_cons_of_mem d hm)
    have hsum : 0 ≤ rest.sum := List.sum_nonneg hrest
    have hdtc : decisionTime = (2 : ℚ) := by norm_num [decisionTime]
    rw [List.sum_cons] at h4
    simp only [WildEnemy.run]
    rw [wild_update_fired]
    simp only [decide_eq_true_eq]
    by_cases hfire : decisionTime < e.time_ + d
    · have ht : ((e.update d rolls).1).time_ = e.time_ + d - decisionTime := by
        rw [wild_update_time, if_pos hfire]
      have hnf : ¬ (decisionTime < ((e.update d rolls).1).time_ + rest.sum) := by
        rw [ht]
        rw [hdtc] at h4 ⊢
        linarith
      rw [if_pos hfire,
        ih ((e.update d rolls).1) ((e.update d rolls).2.1)
          (by rw [ht]; linarith)
          (by rw [ht]; linarith)
          (by rw [ht]; linarith)
          hrest,
        if_neg hnf, List.sum_cons,
        if_pos (show decisionTime < e.time_ + (d + rest.sum) by linarith)]
    · have ht : ((e.update d rolls).1).time_ = e.time_ + d := by
        rw [wild_update_time, if_neg hfire]
      rw [not_lt] at hfire
      rw [if_neg (not_lt.mpr hfire),
        ih ((e.update d rolls).1) ((e.update d rolls).2.1)
          (by rw [ht]; linarith)
          (by rw [ht]; linarith)
          (by rw [ht]; linarith)
          hrest,
        ht, List.sum_cons, add_assoc]
      norm_num

/-- Counterexample to claim C4 as stated: a 2-second window (clock starting
at 0, ticks of 1 s + 1 s, total exactly 2 s) fires zero randomized
decisions, not one, because the trigger is the strict comparison
`time_ > decisionTime_`. -/
theorem wild_two_second_window_no_decision :
    (((WildEnemy.mk (BouncingEnemy.mk 100 146 222 true) 0).run [1, 1] []).2).2 ≠ 1 := by
  have h := wild_run_count [1, 1] (WildEnemy.mk (BouncingEnemy.mk 100 146 222 true) 0) []
    (by norm_num) (by norm_num [decisionTime]) (by norm_num [decisionTime]) (by norm_num)
  rw [h]
  norm_num [decisionTime]

/-- Claim C4 (amended): over any window of accumulated simulated time
strictly greater than 2 s and at most 4 s, with the decision clock starting
at 0, exactly one randomized decision fires; and every update keeps the
speed within `[100, 1000]` inclusive, for every sequence of random rolls. -/
theorem wild_decision_window :
    (∀ (e : WildEnemy) (dts : List ℚ) (rolls : List ℕ),
      e.time_ = 0 → (∀ d ∈ dts, 0 ≤ d) →
      decisionTime < dts.sum → dts.sum ≤ 2 * decisionTime →
      ((e.run dts rolls).2).2 = 1) ∧
    (∀ (e : WildEnemy) (dt : ℚ) (rolls : List ℕ),
      minSpeed ≤ e.speed → e.speed ≤ maxSpeed →
      minSpeed ≤ ((e.update dt rolls).1).speed ∧
        ((e.update dt rolls).1).speed ≤ maxSpeed) := by
  constructor
  · intro e dts rolls ht0 hnn hlow hhigh
    rw [wild_run_count dts e rolls (by rw [ht0]) (by rw [ht0]; norm_num [decisionTime])
      (by rw [ht0]; linarith) hnn]
    rw [ht0, zero_add]
    exact if_pos hlow
  · intro e dt rolls h1 h2
    exact wild_update_speed_range e dt rolls h1 h2

/-- Witness for C4 (amended): a fresh wild enemy over a 3-second window
fires exactly one decision, and one update keeps the constructed speed 222
within bounds. -/
theorem wild_decision_window_witness :
    (((WildEnemy.mk (BouncingEnemy.mk 100 146 222 true) 0).run [1, 1, 1] [0]).2).2 = 1 ∧
    minSpeed ≤ (((WildEnemy.mk (BouncingEnemy.mk 100 146 222 true) 0).update 1 []).1).speed :=
  ⟨wild_decision_window.1 (WildEnemy.mk (BouncingEnemy.mk 100 146 222 true) 0) [1, 1, 1] [0]
      rfl (by norm_num) (by norm_num [decisionTime]) (by norm_num [decisionTime]),
    (wild_decision_window.2 (WildEnemy.mk (BouncingEnemy.mk 100 146 222 true) 0) 1 []
      (by norm_num [minSpeed]) (by norm_num [maxSpeed])).1⟩

/-- Claim C5: when the fallen bonus's box overlaps the player's box during
an update of an alive bonus, that same `update` call kills the bonus and
exactly doubles the player's speed. -/
theorem bonus_pickup_same_tick (b : Bonus) (p : Player) (dt : ℚ)
    (halive : b.isAlive = true)
    (hoverlap : collideAny (Bonus.boundingBoxes { b with y := b.y + bonusSpeed * dt })
      p.boundingBoxes = true) :
    ((b.update p dt).1).isAlive = false ∧ ((b.update p dt).2).speed = 2 * p.speed := by
  clear halive
  have h1 : ((b.update p dt).1).isAlive = false ∧ ((b.update p dt).2).speed = p.speed * 2 := by
    unfold Bonus.update
    dsimp only
    by_cases hfall : b.y + bonusSpeed * dt > screenBounds.height
    · rw [if_pos hfall]
      have hov : collideAny
          (Bonus.boundingBoxes { x := b.x, y := b.y + bonusSpeed * dt, alive_ := false })
          p.boundingBoxes = true := hoverlap
      rw [if_pos hov]
      exact ⟨rfl, rfl⟩
    · rw [if_neg hfall, if_pos hoverlap]
      exact ⟨rfl, rfl⟩
  exact ⟨h1.1, h1.2.trans (mul_comm p.speed 2)⟩

/-- Witness for C5: a star at (202, 399) caught by the player at (202, 405)
with `dt = 0`. -/
theorem bonus_pickup_same_tick_witness :
    (((Bonus.mk 202 399 true).update (Player.mk 202 405 333 ⟨false, false, false, false⟩) 0).1).isAlive
      = false ∧
    (((Bonus.mk 202 399 true).update (Player.mk 202 405 333 ⟨false, false, false, false⟩) 0).2).speed
      = 2 * 333 :=
  bonus_pickup_same_tick (Bonus.mk 202 399 true)
    (Player.mk 202 405 333 ⟨false, false, false, false⟩) 0 rfl
    (by norm_num [collideAny, Bonus.boundingBoxes, Player.boundingBoxes, baseBox,
      bonusRectBounds, playerRectBounds, spriteW, spriteH, rectsIntersect])

/-- Claim C6: every entity yields at least one bounding box; more than one
appears exactly for a wrapping enemy in transition
(`x + rectBounds.right > screenBounds.width`), and then the second box is
`{left: 0, right: (x + rectBounds.right) - width}` with the primary box's
top and bottom. -/
theorem boundingBoxes_spec (ent : Ent) :
    1 ≤ ent.boundingBoxes.length ∧
    (1 < ent.boundingBoxes.length ↔
      ∃ w, ent = Ent.wrapping w ∧ w.x + enemyRectBounds.right > screenBounds.width) ∧
    (∀ w, ent = Ent.wrapping w → w.x + enemyRectBounds.right > screenBounds.width →
      ent.boundingBoxes = [baseBox enemyRectBounds w.x w.y,
        ⟨0, w.y + enemyRectBounds.top,
          w.x + enemyRectBounds.right - screenBounds.width,
          w.y + enemyRectBounds.bottom⟩]) := by
  cases ent with
  | wrapping e =>
    simp only [Ent.boundingBoxes, WrappingEnemy.boundingBoxes]
    by_cases hw : (e.x + enemyRectBounds.right) - screenBounds.width > 0
    · rw [if_pos hw]
      refine ⟨by norm_num, ?_, ?_⟩
      · simp only [List.length_append, List.length_cons, List.length_nil]
        constructor
        · intro _
          exact ⟨e, rfl, by linarith⟩
        · intro _
          norm_num
      · intro w hww _
        injection hww with he
        subst he
        rfl
    · rw [if_neg hw]
      rw [not_lt] at hw
      refine ⟨by norm_num, ?_, ?_⟩
      · simp only [List.length_cons, List.length_nil]
        constructor
        · intro hlen
          norm_num at hlen
        · rintro ⟨w, hww, hcond⟩
          injection hww with he
          subst he
          linarith
      · intro w hww hcond
        injection hww with he
        subst he
        linarith
  | plain e =>
    refine ⟨by simp [Ent.boundingBoxes], ?_, ?_⟩
    · simp [Ent.boundingBoxes]
    · intro w hw
      simp at hw
  | bouncing e =>
    refine ⟨by simp [Ent.boundingBoxes], ?_, ?_⟩
    · simp [Ent.boundingBoxes]
    · intro w hw
      simp at hw
  | wild e =>
    refine ⟨by simp [Ent.boundingBoxes], ?_, ?_⟩
    · simp [Ent.boundingBoxes]
    · intro w hw
      simp at hw
  | player p =>
    refine ⟨by simp [Ent.boundingBoxes, Player.boundingBoxes], ?_, ?_⟩
    · simp [Ent.boundingBoxes, Player.boundingBoxes]
    · intro w hw
      simp at hw
  | bonus b =>
    refine ⟨by simp [Ent.boundingBoxes, Bonus.boundingBoxes], ?_, ?_⟩
    · simp [Ent.boundingBoxes, Bonus.boundingBoxes]
    · intro w hw
      simp at hw

/-- Witness for C6: a wrapping enemy at `x = 500` is in transition and gets
the wrapped second box `{left: 0, right: 96}`. -/
theorem boundingBoxes_spec_witness :
    (Ent.wrapping (WrappingEnemy.mk 500 146 222)).boundingBoxes =
      [baseBox enemyRectBounds 500 146,
        ⟨0, 146 + enemyRectBounds.top, 500 + enemyRectBounds.right - screenBounds.width,
          146 + enemyRectBounds.bottom⟩] :=
  (boundingBoxes_spec (Ent.wrapping (WrappingEnemy.mk 500 146 222))).2.2
    (WrappingEnemy.mk 500 146 222) rfl
    (by norm_num [enemyRectBounds, screenBounds, spriteW, canvasWidth])

/-- Helper: an absent critter never fires. -/
theorem critterFires_none (dts : List ℚ) :
    critterFires none dts = List.replicate dts.length false := by
  induction dts with
  | nil => rfl
  | cons d rest ih =>
    simp [critterFires, critterStep, ih, List.replicate]

/-- Helper: an absent critter stays absent. -/
theorem critterAfter_none (dts : List ℚ) : critterAfter none dts = none := by
  induction dts with
  | nil => rfl
  | cons d rest ih =>
    simp [critterAfter, critterStep, ih]

/-- Helper: a dead critter is dropped on the next tick and never fires. -/
theorem critterFires_dead (c : Chronos) (dts : List ℚ) (h : c.isAlive = false) :
    critterFires (some c) dts = List.replicate dts.length false := by
  cases dts with
  | nil => rfl
  | cons d rest =>
    simp [critterFires, critterStep, h, critterFires_none, List.replicate]

/-- Helper: `getD` over an all-false list is false. -/
theorem getD_replicate_false (n i : ℕ) :
    (List.replicate n false).getD i false = false := by
  induction n generalizing i with
  | zero => rfl
  | succ m ih =>
    cases i with
    | zero => rfl
    | succ j =>
      simp only [List.replicate, List.getD_cons_succ]
      exact ih j

/-- Helper: once accumulated time reaches the target, the roster entry is
gone or dead. -/
theorem critterAfter_reached (dts : List ℚ) (t T : ℚ)
    (hnn : ∀ d ∈ dts, 0 ≤ d) (hge : T ≤ t + dts.sum) :
    aliveOpt (critterAfter (some ⟨t, T⟩) dts) = false := by
  induction dts generalizing t with
  | nil =>
    rw [List.sum_nil, add_zero] at hge
    simp [critterAfter, aliveOpt, Chronos.isAlive, not_lt.mpr hge]
  | cons d rest ih =>
    have hd : 0 ≤ d := hnn d (List.mem_cons_self d rest)
    have hrest : ∀ d0 ∈ rest, 0 ≤ d0 := fun d0 hm => hnn d0 (List.mem_cons_of_mem d hm)
    rw [List.sum_cons] at hge
    by_cases halive : t < T
    · simp only [critterAfter, critterStep, Chronos.isAlive, Chronos.update]
      rw [if_pos (by simpa using halive)]
      exact ih (t + d) hrest (by linarith)
    · simp only [critterAfter, critterStep, Chronos.isAlive]
      rw [if_neg (by simpa using halive)]
      simp [critterAfter_none, aliveOpt]

/-- Helper: one tick of the critter pass on a live Chronos advances the
clock and fires exactly when the advanced clock reaches the target. -/
theorem critterFires_cons_alive (t T d : ℚ) (dts : List ℚ) (h : t < T) :
    critterFires (some ⟨t, T⟩) (d :: dts) =
      (decide (T ≤ t + d)) :: critterFires (some ⟨t + d, T⟩) dts := by
  simp only [critterFires, critterStep, Chronos.update, Chronos.isAlive]
  rw [if_pos (by simpa using h)]
  dsimp only
  rw [← decide_not]
  rw [decide_eq_decide.mpr not_lt]

/-- Helper: the fire flag of tick `i` is true exactly when the accumulated
time first reaches the target at tick `i`. -/
theorem critterFires_getD (dts : List ℚ) (t T : ℚ) (ht : t < T)
    (hnn : ∀ d ∈ dts, 0 ≤ d) :
    ∀ i, i < dts.length →
      ((critterFires (some ⟨t, T⟩) dts).getD i false = true ↔
        (T ≤ t + (dts.take (i + 1)).sum ∧ t + (dts.take i).sum < T)) := by
  induction dts generalizing t with
  | nil =>
    intro i hi
    simp at hi
  | cons d rest ih =>
    intro i hi
    have hd : 0 ≤ d := hnn d (List.mem_cons_self d rest)
    have hrest : ∀ d0 ∈ rest, 0 ≤ d0 := fun d0 hm => hnn d0 (List.mem_cons_of_mem d hm)
    rw [critterFires_cons_alive t T d rest ht]
    cases i with
    | zero =>
      simp only [List.getD_cons_zero, List.take_succ_cons, List.take_zero, List.sum_cons,
        List.sum_nil, add_zero]
      constructor
      · intro hflag
        exact ⟨by simpa using hflag, ht⟩
      · intro hc
        simpa using hc.1
    | succ j =>
      simp only [List.getD_cons_succ, List.take_succ_cons, List.sum_cons]
      by_cases hnext : t + d < T
      · rw [ih (t + d) hnext hrest j (by simpa using hi)]
        constructor
        · intro hc
          exact ⟨by linarith [hc.1], by linarith [hc.2]⟩
        · intro hc
          exact ⟨by linarith [hc.1], by linarith [hc.2]⟩
      · have hdead : (⟨t + d, T⟩ : Chronos).isAlive = false := by
          simp [Chronos.isAlive, hnext]
        rw [critterFires_dead ⟨t + d, T⟩ rest hdead, getD_replicate_false]
        have hsumtake : 0 ≤ (rest.take j).sum :=
          List.sum_nonneg fun d0 hm => hrest d0 (List.mem_of_mem_take hm)
        constructor
        · intro hfalse
          cases hfalse
        · intro hc
          exfalso
          have h2 := hc.2
          rw [not_lt] at hnext
          linarith
/-- Helper: total number of callback invocations across a run. -/
theorem critterFires_count (dts : List ℚ) (t T : ℚ) (ht : t < T)
    (hnn : ∀ d ∈ dts, 0 ≤ d) :
    (critterFires (some ⟨t, T⟩) dts).count true =
      if T ≤ t + dts.sum then 1 else 0 := by
  induction dts generalizing t with
  | nil =>
    rw [List.sum_nil, add_zero, if_neg (not_le.mpr ht)]
    rfl
  | cons d rest ih =>
    have hd : 0 ≤ d := hnn d (List.mem_cons_self d rest)
    have hrest : ∀ d0 ∈ rest, 0 ≤ d0 := fun d0 hm => hnn d0 (List.mem_cons_of_mem d hm)
    have hsum : 0 ≤ rest.sum := List.sum_nonneg hrest
    rw [critterFires_cons_alive t T d rest ht, List.sum_cons]
    by_cases hnext : t + d < T
    · rw [List.count_cons, decide_eq_false (not_le.mpr hnext), ih (t + d) hnext hrest]
      simp [add_assoc]
    · have hdead : (⟨t + d, T⟩ : Chronos).isAlive = false := by
        simp [Chronos.isAlive, hnext]
      rw [critterFires_dead _ rest hdead]
      rw [not_lt] at hnext
      rw [if_pos (by linarith), List.count_cons, decide_eq_true hnext]
      simp [List.count_replicate]

/-- Claim C1: driven by the session controller's critter pass, a Chronos
with target `T > 0` fires its callback exactly on the first tick where
accumulated time reaches `T` (at most once overall, exactly once when the
run's total time reaches `T`), and the roster entry is dead on every later
tick. -/
theorem chronos_callback_once (T : ℚ) (hT : 0 < T) (dts : List ℚ)
    (hnn : ∀ d ∈ dts, 0 ≤ d) :
    (∀ i, i < dts.length →
      ((critterFires (some ⟨0, T⟩) dts).getD i false = true ↔
        (T ≤ (dts.take (i + 1)).sum ∧ (dts.take i).sum < T))) ∧
    (critterFires (some ⟨0, T⟩) dts).count true = (if T ≤ dts.sum then 1 else 0) ∧
    (∀ n, T ≤ (dts.take n).sum →
      aliveOpt (critterAfter (some ⟨0, T⟩) (dts.take n)) = false) := by
  refine ⟨?_, ?_, ?_⟩
  · intro i hi
    have h := critterFires_getD dts 0 T hT hnn i hi
    simpa using h
  · have h := critterFires_count dts 0 T hT hnn
    simpa using h
  · intro n hn
    exact critterAfter_reached (dts.take n) 0 T
      (fun d hd => hnn d (List.mem_of_mem_take hd)) (by simpa using hn)

/-- Witness for C1: the game's `Chronos(10, ...)` over three 4-second ticks
fires exactly once. -/
theorem chronos_callback_once_witness :
    (critterFires (some ⟨0, 10⟩) [4, 4, 4]).count true = 1 := by
  have h := (chronos_callback_once 10 (by norm_num) [4, 4, 4] (by norm_num)).2.1
  rw [h]
  norm_num

/-- Helper: the events of one frame are a pending reset (if any) first,
then exactly one update and one render. -/
theorem main_tick_events {W : Type} (F : EngineFns W) (dt : ℚ) (s : EngineState W) :
    (main_tick F dt s).2 =
      (if s.reset_request then [Ev.reset s.reset_param] else []) ++
        [Ev.update dt, Ev.render] := by
  unfold main_tick
  dsimp only
  split <;> rfl

/-- Claim C2: a reset requested during a tick (by the Chronos callback in
`updateEntities`, by a player hit, or by the goal being reached in
`checkCollisions`) is never applied within that tick — the tick's events
are at most one leading reset followed by update and render — the pending
request flag after a tick is exactly the disjunction of those three
sources, and a pending request is applied at the very start of the next
tick, before that tick's update and render. -/
theorem reset_applied_next_tick_start {W : Type} (F : EngineFns W) (dt dt2 : ℚ)
    (s : EngineState W) :
    ((main_tick F dt s).2 =
      (if s.reset_request then [Ev.reset s.reset_param] else []) ++
        [Ev.update dt, Ev.render]) ∧
    ((main_tick F dt s).1.reset_request =
      ((F.updateEntities dt
          (if s.reset_request then F.resetWorld s.reset_param else s.world)).2.isSome
        || F.isHit (F.collidePass
            (F.updateEntities dt
              (if s.reset_request then F.resetWorld s.reset_param else s.world)).1)
        || F.reachedWater (F.collidePass
            (F.updateEntities dt
              (if s.reset_request then F.resetWorld s.reset_param else s.world)).1))) ∧
    ((main_tick F dt s).1.reset_request = true →
      (main_tick F dt2 (main_tick F dt s).1).2 =
        Ev.reset (main_tick F dt s).1.reset_param :: [Ev.update dt2, Ev.render]) := by
  refine ⟨main_tick_events F dt s, ?_, ?_⟩
  · unfold main_tick updatePass checkCollisions requestReset
    dsimp only
    by_cases hr : s.reset_request
    · rw [if_pos hr, if_pos hr]
      dsimp only
      cases hreq : (F.updateEntities dt (F.resetWorld s.reset_param)).2 with
      | none =>
        dsimp only
        split <;> split <;> simp_all
      | some a =>
        dsimp only
        split <;> split <;> simp_all
    · rw [if_neg hr, if_neg hr]
      dsimp only
      rw [Bool.not_eq_true] at hr
      cases hreq : (F.updateEntities dt s.world).2 with
      | none =>
        dsimp only
        split <;> split <;> simp_all
      | some a =>
        dsimp only
        split <;> split <;> simp_all
  · intro h
    rw [main_tick_events F dt2 (main_tick F dt s).1, h]
    rfl

/-- Witness for C2: with a concrete world where the goal predicate holds,
the first tick requests a reset and the second tick's events start with
that reset before update and render. -/
theorem reset_applied_next_tick_start_witness :
    (main_tick unitEngine 1 (main_tick unitEngine 1 ⟨false, none, ()⟩).1).2 =
      Ev.reset (main_tick unitEngine 1 ⟨false, none, ()⟩).1.reset_param ::
        [Ev.update 1, Ev.render] :=
  (reset_applied_next_tick_start unitEngine 1 1 ⟨false, none, ()⟩).2.2 rfl

/-- Witness for C10 at a concrete bouncing enemy. -/
theorem bouncing_stays_near_arena_witness :
    -enemyRectBounds.right ≤ ((BouncingEnemy.mk 400 146 222 true).update 1).x ∧
    ((BouncingEnemy.mk 400 146 222 true).update 1).x ≤ screenBounds.width :=
  bouncing_stays_near_arena.1 (BouncingEnemy.mk 400 146 222 true) 1
    (by norm_num) (by norm_num)
    (by norm_num [enemyRectBounds, spriteW])
    (by norm_num [screenBounds, canvasWidth])

/-- Witness for C3: a player standing still at the start position stays in
bounds after one update. -/
theorem player_update_in_bounds_witness :
    screenBounds.x ≤ ((Player.mk 202 405 333 ⟨false, false, false, false⟩).update 1).x
        + playerRectBounds.left ∧
    ((Player.mk 202 405 333 ⟨false, false, false, false⟩).update 1).x
        + playerRectBounds.right ≤ screenBounds.width ∧
    screenBounds.y ≤ ((Player.mk 202 405 333 ⟨false, false, false, false⟩).update 1).y
        + playerRectBounds.top ∧
    ((Player.mk 202 405 333 ⟨false, false, false, false⟩).update 1).y
        + playerRectBounds.bottom ≤ screenBounds.height :=
  player_update_in_bounds (Player.mk 202 405 333 ⟨false, false, false, false⟩) 1 (by norm_num)

end Arcade
